import Mathlib

/-!
Verification of the logmiao structured-logging library (shallow embedding).

Strings are modelled through their character lists (`String.data`); Go byte
lengths and byte slicing coincide with character counts on the ASCII inputs
used throughout.  Wall-clock time is a `Nat` parameter (the Go code calls
`time.Now()` inside the filter); durations are in the same arbitrary unit.
slog levels are embedded as `Int` (debug = -4, info = 0, warn = 4, error = 8).
-/

namespace Logmiao

/-- Go `strings.Contains`: `pat` occurs as a contiguous sublist of `s`. -/
def listContains (s pat : List Char) : Bool :=
  match s with
  | [] => pat.isEmpty
  | c :: rest => pat.isPrefixOf (c :: rest) || listContains rest pat

/-- Whether the regex fragment `.*` may bridge from the head of `s` to an
occurrence of `p2`: some gap of non-newline characters followed by `p2`
(Go's `.` does not match a newline). -/
def afterNoNewline (p2 : List Char) : List Char → Bool
  | [] => p2.isEmpty
  | c :: rest => p2.isPrefixOf (c :: rest) || (!(c = '\n') && afterNoNewline p2 rest)

/-- Matcher for a Go regex of the form `p1.*p2` (two literals bridged by
`.*`), searched anywhere in `s` as `regexp.MatchString` does. -/
def matchDotStar (s p1 p2 : List Char) : Bool :=
  match s with
  | [] => p1.isEmpty && afterNoNewline p2 []
  | c :: rest =>
      (p1.isPrefixOf (c :: rest) && afterNoNewline p2 ((c :: rest).drop p1.length))
        || matchDotStar rest p1 p2

/-- Go `unicode.IsSpace` restricted to the ASCII range (the only characters
relevant to the embedded messages). -/
def goIsSpace (c : Char) : Bool :=
  c = ' ' || c = '\t' || c = '\n' || c = '\x0b' || c = '\x0c' || c = '\r'

/-- Go `strings.TrimSpace` on character lists. -/
def trimSpace (s : List Char) : List Char :=
  ((s.dropWhile goIsSpace).reverse.dropWhile goIsSpace).reverse

/-- Lower-cased character list of a string, as `strings.ToLower` produces on
ASCII text. -/
def lowerData (s : String) : List Char :=
  s.data.map Char.toLower

/-- One log record flowing through the pipeline (attribute values are kept in
their rendered string form, which is what the filter inspects). -/
structure Record where
  level : Int
  message : String
  attrs : List (String × String)
deriving DecidableEq, Repr

/-- slog `Record.Clone`: records travel by value, so a clone is the record
itself. -/
def cloneRecord (r : Record) : Record := r

/-! ## SmartFilterHandler (src/examples/gin-server/main.go, package handler) -/

/-- The wrapped downstream handler, abstracted by the one capability the
filter consults: its `Enabled(level)` predicate. -/
structure WrappedH where
  enabledFn : Int → Bool

/-- `SmartFilterHandler`: configuration fields of the Go struct.  The mutable
`errorTracker` map is externalized as an explicit `FilterState` value threaded
through `smartHandle`; the compiled regexes are fixed and embedded as the
matchers below. -/
structure SmartFilter where
  handler : WrappedH
  ignoreGinDebug : Bool
  ignoreHealthCheck : Bool
  minLevel : Int
  errorWindow : Nat

/-- The dedup map `errorTracker : map[string]time.Time`, as an association
list from message text to the timestamp it was last accepted (keys unique by
construction of `insertTracker`). -/
abbrev FilterState := List (String × Nat)

/-- `ginDebugRegex = ^\[GIN-debug\]|\[GIN\]`: anchored first alternative,
unanchored second. -/
def ginDebugMatch (msg : String) : Bool :=
  "[GIN-debug]".data.isPrefixOf msg.data || listContains msg.data "[GIN]".data

/-- `cookiePartitionRegex = could not unmarshal event.*CookiePartitionKey`. -/
def cookiePartitionMatch (msg : String) : Bool :=
  matchDotStar msg.data "could not unmarshal event".data "CookiePartitionKey".data

/-- `chromedpInternalRegex = chromedp: could not retrieve|context deadline
exceeded.*chromedp`. -/
def chromedpMatch (msg : String) : Bool :=
  listContains msg.data "chromedp: could not retrieve".data
    || matchDotStar msg.data "context deadline exceeded".data "chromedp".data

/-- `healthCheckRegex = /health|/ping|/status|/metrics` (alternation of
literals, i.e. contains-any). -/
def healthCheckMatch (msg : String) : Bool :=
  listContains msg.data "/health".data || listContains msg.data "/ping".data
    || listContains msg.data "/status".data || listContains msg.data "/metrics".data

/-- `shouldIgnoreHealthCheck`: the message, or a `path`/`url` attribute value,
matches the health-check pattern. -/
def healthCheckTrigger (r : Record) : Bool :=
  healthCheckMatch r.message
    || r.attrs.any (fun a => (a.1 = "path" || a.1 = "url") && healthCheckMatch a.2)

/-- The fixed list of noisy-transient phrases of `isDuplicateContextError`. -/
def contextErrors : List String :=
  ["context canceled", "context deadline exceeded",
   "connection reset by peer", "broken pipe"]

/-- A message is classified noisy-transient when its lower-cased text contains
one of the fixed phrases. -/
def isContextErrorMsg (msg : String) : Bool :=
  contextErrors.any (fun e => listContains (lowerData msg) e.data)

/-- Map lookup `errorTracker[msg]`. -/
def lookupTracker : FilterState → String → Option Nat
  | [], _ => none
  | (k, t) :: rest, key => if k = key then some t else lookupTracker rest key

/-- Map assignment `errorTracker[msg] = now` (overwrite). -/
def insertTracker (st : FilterState) (key : String) (t : Nat) : FilterState :=
  (key, t) :: st.filter (fun e => !decide (e.1 = key))

/-- The purge loop of `shouldFilterDuplicateError`: delete every entry with
`now.Sub(timestamp) > errorWindow`. -/
def purgeTracker (w now : Nat) (st : FilterState) : FilterState :=
  st.filter (fun e => !decide (now - e.2 > w))

/-- `shouldFilterDuplicateError`: purge stale entries, then reject a message
whose entry is within the window (without refreshing it); otherwise record
the message at the current time and accept. -/
def shouldFilterDuplicateError (msg : String) (w now : Nat) (st : FilterState) :
    Bool × FilterState :=
  let purged := purgeTracker w now st
  let isDup := match lookupTracker purged msg with
    | some lastTime => decide (now - lastTime < w)
    | none => false
  if isDup then (true, purged) else (false, insertTracker purged msg now)

/-- `isDuplicateContextError`: the dedup policy applies only to
noisy-transient messages; other messages leave the tracker untouched. -/
def isDuplicateContextError (msg : String) (w now : Nat) (st : FilterState) :
    Bool × FilterState :=
  if isContextErrorMsg msg then shouldFilterDuplicateError msg w now st
  else (false, st)

/-- `SmartFilterHandler.Handle`.  The returned `Bool` is whether the record
was forwarded to the wrapped handler (`h.handler.Handle` is invoked); every
rejection path `return nil`s without forwarding. -/
def smartHandle (h : SmartFilter) (st : FilterState) (now : Nat) (r : Record) :
    Bool × FilterState :=
  if r.level < h.minLevel then (false, st)
  else if h.ignoreGinDebug && ginDebugMatch r.message then (false, st)
  else if cookiePartitionMatch r.message then (false, st)
  else if chromedpMatch r.message then (false, st)
  else if h.ignoreHealthCheck && healthCheckTrigger r then (false, st)
  else
    let dup := isDuplicateContextError r.message h.errorWindow now st
    if dup.1 then (false, dup.2)
    else if trimSpace r.message.data = [] then (false, dup.2)
    else (true, dup.2)

/-- `SmartFilterHandler.Enabled`: `level >= h.minLevel && h.handler.Enabled`. -/
def smartEnabled (h : SmartFilter) (level : Int) : Bool :=
  decide (h.minLevel ≤ level) && h.handler.enabledFn level

/-- `SmartFilterHandler.WithAttrs`: a new filter whose wrapped handler is
`h.handler.WithAttrs(attrs)` (abstracted as `wa`) and which keeps every other
field — in particular the dedup tracker and window are shared, which the
explicit-state embedding renders as: the derived handler is run on the very
same `FilterState`. -/
def smartWithAttrs (h : SmartFilter) (wa : WrappedH → WrappedH) : SmartFilter :=
  { h with handler := wa h.handler }

/-- `SmartFilterHandler.WithGroup`: same sharing as `smartWithAttrs`, with the
wrapped handler replaced by `h.handler.WithGroup(name)` (abstracted as `wg`). -/
def smartWithGroup (h : SmartFilter) (wg : WrappedH → WrappedH) : SmartFilter :=
  { h with handler := wg h.handler }

/-- The filter configuration built by `createLogger` for the console handler:
`IgnoreGinDebug = true`, `IgnoreHealthCheck = true`, `MinLevel = info`, and
the constructor-fixed `errorWindow` of five minutes (time unit: minutes). -/
def defaultFilter : SmartFilter :=
  { handler := ⟨fun _ => true⟩
    ignoreGinDebug := true
    ignoreHealthCheck := true
    minLevel := 0
    errorWindow := 5 }

/-! ## MultiHandler (src/logger.go) -/

/-- A member handler of the fan-out dispatcher, abstracted by the two
capabilities `MultiHandler.Handle` uses: `Enabled(level)` and the error its
`Handle` returns for a given record (`none` = success). -/
structure Member where
  enabledFn : Int → Bool
  handleFn : Record → Option String

/-- `MultiHandler.Enabled`: true iff at least one member is enabled. -/
def multiEnabled (members : List Member) (level : Int) : Bool :=
  members.any (fun m => m.enabledFn level)

/-- `MultiHandler.Handle`: for each member in order, if the member is enabled
for the record's level, hand it its own clone of the record and invoke its
`Handle`, keeping (but never propagating) the member's error — it is only
logged.  The first component records, per member, the clone it received and
the error it returned (`none` when the member was skipped as not enabled);
the second component is the value `Handle` returns to the caller. -/
def multiHandle : List Member → Record → List (Option (Record × Option String)) × Option String
  | [], _ => ([], none)
  | m :: rest, r =>
      let tail := multiHandle rest r
      if m.enabledFn r.level then
        let rc := cloneRecord r
        (some (rc, m.handleFn rc) :: tail.1, tail.2)
      else (none :: tail.1, tail.2)

/-! ## Gin middleware (src, package middleware) -/

/-- `getLogLevelForStatus`: severity by HTTP status code. -/
def getLogLevelForStatus (status : Int) : Int :=
  if status ≥ 500 then 8
  else if status ≥ 400 then 4
  else if status ≥ 300 then 0
  else 0

/-- The per-request logging decision of `GinMiddlewareWithConfig`: a request
whose path has a configured skip path as prefix returns early and logs
nothing; every other request falls through to the single `slog.LogAttrs`
call, at the level chosen from the response status.  Each emitted record is
listed as (level, message). -/
def ginMiddlewareLog (skipPaths : List String) (path : String) (status : Int) :
    List (Int × String) :=
  if skipPaths.any (fun sp => sp.data.isPrefixOf path.data) then []
  else [(getLogLevelForStatus status, "HTTP Request")]

/-- `DefaultGinMiddlewareConfig().SkipPaths`. -/
def defaultSkipPaths : List String := ["/health", "/ping", "/metrics"]

/-! ## Privacy transforms (src/utils/utils.go) -/

/-- The privacy toggles of the loaded configuration
(`Logger.Features.Privacy`). -/
structure PrivacyCfg where
  enableEmailMask : Bool
  enablePhoneMask : Bool
  enableInputSanitize : Bool

/-- The guard `config.GlobalConfig != nil && !...EnableEmailMask`: a nil
global configuration never disables masking. -/
def cfgEmailMaskOff : Option PrivacyCfg → Bool
  | some c => !c.enableEmailMask
  | none => false

/-- The guard `config.GlobalConfig != nil && !...EnablePhoneMask`. -/
def cfgPhoneMaskOff : Option PrivacyCfg → Bool
  | some c => !c.enablePhoneMask
  | none => false

/-- The guard `config.GlobalConfig != nil && !...EnableInputSanitize`. -/
def cfgSanitizeOff : Option PrivacyCfg → Bool
  | some c => !c.enableInputSanitize
  | none => false

/-- Go `strings.Split` with a one-character separator. -/
def splitOnChar (sep : Char) : List Char → List (List Char)
  | [] => [[]]
  | c :: rest =>
      match splitOnChar sep rest with
      | [] => [[]]
      | h :: t => if c = sep then [] :: h :: t else (c :: h) :: t

/-- `maskString`: generic masking helper. -/
def maskStringData (s : List Char) : List Char :=
  if s.length ≤ 2 then List.replicate s.length '*'
  else if s.length ≤ 4 then s.take 1 ++ List.replicate (s.length - 1) '*'
  else s.take 2 ++ List.replicate (s.length - 4) '*' ++ s.drop (s.length - 2)

/-- The masking branch of `MaskEmail` (taken when masking is not disabled). -/
def maskEmailData (l : List Char) : List Char :=
  match splitOnChar '@' l with
  | [username, domain] =>
      if username.length ≤ 2 then username ++ '@' :: domain
      else if username.length ≤ 4 then username.take 2 ++ "**@".data ++ domain
      else username.take 2 ++ List.replicate (username.length - 2) '*' ++ '@' :: domain
  | _ => maskStringData l

/-- `MaskEmail`, with the global configuration passed explicitly (`none` =
`config.GlobalConfig == nil`). -/
def MaskEmail (cfg : Option PrivacyCfg) (email : String) : String :=
  if email = "" then ""
  else if cfgEmailMaskOff cfg then email
  else ⟨maskEmailData email.data⟩

/-- The masking branch of `MaskPhone`. -/
def maskPhoneData (p : List Char) : List Char :=
  if p.length < 7 then
    if p.length ≤ 2 then List.replicate p.length '*'
    else if p.length ≤ 4 then p.take 2 ++ List.replicate (p.length - 2) '*'
    else p.take 2 ++ "***".data
  else if p.length = 11 ∧ p.head? ≠ some '+' then
    p.take 3 ++ "****".data ++ p.drop 7
  else if p.head? = some '+' ∧ p.length > 10 ∧ p.length ≥ 10 then
    p.take 3 ++ "****".data ++ p.drop (p.length - 4)
  else if p.length ≤ 4 then maskStringData p
  else p.take 2 ++ List.replicate (p.length - 4) '*' ++ p.drop (p.length - 2)

/-- `MaskPhone`, with the global configuration passed explicitly. -/
def MaskPhone (cfg : Option PrivacyCfg) (phone : String) : String :=
  if phone = "" then ""
  else if cfgPhoneMaskOff cfg then phone
  else ⟨maskPhoneData phone.data⟩

/-- Go `strings.ReplaceAll` with a one-character pattern. -/
def replaceAllChar (c : Char) (rep : List Char) (s : List Char) : List Char :=
  s.flatMap (fun x => if x = c then rep else [x])

/-- The sanitizing branch of `SanitizeUserInput`: escape newline, carriage
return and tab, then cap at 1000 characters. -/
def sanitizeData (l : List Char) : List Char :=
  let a := replaceAllChar '\n' "\\n".data l
  let b := replaceAllChar '\r' "\\r".data a
  let c := replaceAllChar '\t' "\\t".data b
  if c.length > 1000 then c.take 1000 ++ "...(truncated)".data else c

/-- `SanitizeUserInput`, with the global configuration passed explicitly. -/
def SanitizeUserInput (cfg : Option PrivacyCfg) (input : String) : String :=
  if cfgSanitizeOff cfg then input
  else ⟨sanitizeData input.data⟩

/-! ## Keyword/pattern highlighter (src, package handler: `colorize`)

Each regex pass is embedded as a left-to-right scan (`scanReplace`) driven by
a position matcher returning the length of the match found at the current
position, mirroring Go `regexp.ReplaceAllStringFunc`'s leftmost, preference-
ordered matching.  Replacements wrap the matched text in the ANSI SGR escape
sequences produced by the fatih/color functions the source uses. -/

/-- A regexp word character, as used by Go's `\b`. -/
def isWordChar (c : Char) : Bool :=
  ('a' ≤ c && c ≤ 'z') || ('A' ≤ c && c ≤ 'Z') || ('0' ≤ c && c ≤ '9') || c = '_'

/-- `\b` holds before the current position: start of text or previous
character not a word character. -/
def boundaryBefore : Option Char → Bool
  | none => true
  | some c => !isWordChar c

/-- `\b` holds after a match ending here: end of text or next character not a
word character. -/
def boundaryAfter : List Char → Bool
  | [] => true
  | c :: _ => !isWordChar c

/-- Case-insensitive literal prefix test (the `(?i)` keyword regexes). -/
def ciPrefix : List Char → List Char → Bool
  | [], _ => true
  | _ :: _, [] => false
  | k :: ks, c :: cs => (k.toLower = c.toLower) && ciPrefix ks cs

/-- One replace-all pass: walk the text; where `mAt` reports a match of
length `n + 1`, wrap those characters and resume after them (the previous
character for `\b` purposes becoming the match's last character); otherwise
keep the character and advance. -/
def scanReplace (mAt : Option Char → List Char → Option Nat)
    (wrap : List Char → List Char) (prev : Option Char) (s : List Char) : List Char :=
  match s with
  | [] => []
  | c :: rest =>
      match mAt prev (c :: rest) with
      | some (n + 1) =>
          wrap ((c :: rest).take (n + 1))
            ++ scanReplace mAt wrap ((c :: rest).take (n + 1)).getLast?
                 ((c :: rest).drop (n + 1))
      | _ => c :: scanReplace mAt wrap (some c) rest
termination_by s.length
decreasing_by
  · simp only [List.length_drop, List.length_cons]; omega
  · simp only [List.length_cons]; omega

/-- Whether the scan of `scanReplace` would find any match. -/
def hasMatchScan (mAt : Option Char → List Char → Option Nat) :
    Option Char → List Char → Bool
  | _, [] => false
  | prev, c :: rest =>
      match mAt prev (c :: rest) with
      | some (_ + 1) => true
      | _ => hasMatchScan mAt (some c) rest

/-- Position matcher for the keyword regex `(?i)\b<kw>\b`. -/
def kwMatchAt (kw : List Char) (prev : Option Char) (s : List Char) : Option Nat :=
  if boundaryBefore prev && ciPrefix kw s && boundaryAfter (s.drop kw.length) then
    some kw.length
  else none

/-- ANSI SGR wrapping, as fatih/color renders colored text. -/
def ansiWrap (code : String) (s : List Char) : List Char :=
  '\x1b' :: '[' :: code.data ++ 'm' :: s ++ ['\x1b', '[', '0', 'm']

/-- The `keywordColors` dictionary with each keyword's SGR code (HiGreen 92,
HiRed 91, HiYellow 93, HiBlue 94, HiCyan 96, HiMagenta 95), in source order;
Go's map iteration order is unspecified, and none of the verified properties
depends on the order. -/
def keywordTable : List (String × String) :=
  [("success", "92"), ("successfully", "92"), ("loaded", "92"), ("completed", "92"),
   ("established", "92"), ("initialized", "92"), ("enabled", "92"), ("ok", "92"),
   ("finished", "92"), ("resolved", "92"), ("found", "92"), ("true", "92"),
   ("connected", "92"),
   ("error", "91"), ("failed", "91"), ("fail", "91"), ("invalid", "91"),
   ("unable", "91"), ("cannot", "91"), ("denied", "91"), ("rejected", "91"),
   ("timeout", "91"), ("panic", "91"), ("false", "91"), ("disconnected", "91"),
   ("crashed", "91"),
   ("warn", "93"), ("warning", "93"), ("deprecated", "93"), ("fallback", "93"),
   ("skipping", "93"), ("missing", "93"), ("empty", "93"), ("ignored", "93"),
   ("retrying", "93"),
   ("info", "94"), ("request", "94"), ("response", "94"), ("starting", "94"),
   ("stopping", "94"), ("connecting", "94"), ("sending", "94"), ("receiving", "94"),
   ("processing", "94"),
   ("get", "96"), ("post", "96"), ("put", "96"), ("delete", "96"), ("patch", "96"),
   ("debug", "95"), ("parsing", "95"), ("generating", "95"), ("writing", "95"),
   ("reading", "95"), ("database", "95"), ("cache", "95"), ("router", "95"),
   ("server", "95"), ("client", "95"), ("user", "95"), ("session", "95")]

/-- Pass 1 of `colorize`: one whole-word case-insensitive replace-all per
dictionary keyword. -/
def keywordPass (s : List Char) : List Char :=
  keywordTable.foldl
    (fun acc kw => scanReplace (kwMatchAt kw.1.data) (ansiWrap kw.2) none acc) s

/-- Length of the leading run of ASCII digits. -/
def countDigits (s : List Char) : Nat :=
  (s.takeWhile (fun c => '0' ≤ c && c ≤ '9')).length

/-- Go regexp whitespace class `\s` = `[\t\n\f\r ]`. -/
def goRegexSpace (c : Char) : Bool :=
  c = '\t' || c = '\n' || c = '\x0c' || c = '\r' || c = ' '

/-- Length of the leading run of non-whitespace characters (`[^\s]*`). -/
def countNonSpace (s : List Char) : Nat :=
  (s.takeWhile (fun c => !goRegexSpace c)).length

/-- Try the unit suffix alternatives `ms|s|MB|KB|GB` and then the empty
suffix, in the regex's preference order, accepting the first whose end
satisfies `\b`; returns the accepted suffix length. -/
def tryUnits (s : List Char) : Option Nat :=
  if "ms".data.isPrefixOf s && boundaryAfter (s.drop 2) then some 2
  else if "s".data.isPrefixOf s && boundaryAfter (s.drop 1) then some 1
  else if "MB".data.isPrefixOf s && boundaryAfter (s.drop 2) then some 2
  else if "KB".data.isPrefixOf s && boundaryAfter (s.drop 2) then some 2
  else if "GB".data.isPrefixOf s && boundaryAfter (s.drop 2) then some 2
  else if boundaryAfter s then some 0
  else none

/-- Position matcher for `numericRegex = \b\d+(\.\d+)?(ms|s|MB|KB|GB)?\b`:
maximal digit run, then the optional fraction (preferred when present), then
the preferred unit suffix; if no alternative under the fraction satisfies the
trailing `\b`, fall back to the fraction-less alternatives. -/
def numericMatchAt (prev : Option Char) (s : List Char) : Option Nat :=
  if !boundaryBefore prev then none
  else
    let d := countDigits s
    if d = 0 then none
    else
      let afterInt := s.drop d
      let fracLen : Option Nat :=
        match afterInt with
        | '.' :: rest2 =>
            let f := countDigits rest2
            if f = 0 then none else some (1 + f)
        | _ => none
      match fracLen with
      | some fl =>
          match tryUnits (s.drop (d + fl)) with
          | some u => some (d + fl + u)
          | none =>
              match tryUnits afterInt with
              | some u => some (d + u)
              | none => none
      | none =>
          match tryUnits afterInt with
          | some u => some (d + u)
          | none => none

/-- Position matcher for `urlRegex = https?://[^\s]+` (greedy tail). -/
def urlMatchAt (_prev : Option Char) (s : List Char) : Option Nat :=
  if "https://".data.isPrefixOf s then
    let n := countNonSpace (s.drop 8)
    if n = 0 then none else some (8 + n)
  else if "http://".data.isPrefixOf s then
    let n := countNonSpace (s.drop 7)
    if n = 0 then none else some (7 + n)
  else none

/-- One dotted-quad segment for the IPv4 regex: a run of 1 to 3 digits. -/
def ipSegment (s : List Char) : Option Nat :=
  let d := countDigits s
  if 1 ≤ d ∧ d ≤ 3 then some d else none

/-- Position matcher for
`ipRegex = \b\d{1,3}\.\d{1,3}\.\d{1,3}\.\d{1,3}\b`. -/
def ipMatchAt (prev : Option Char) (s : List Char) : Option Nat :=
  if !boundaryBefore prev then none
  else
    match ipSegment s with
    | none => none
    | some a =>
        if (s.drop a).head? ≠ some '.' then none
        else
          match ipSegment (s.drop (a + 1)) with
          | none => none
          | some b =>
              if (s.drop (a + 1 + b)).head? ≠ some '.' then none
              else
                match ipSegment (s.drop (a + 1 + b + 1)) with
                | none => none
                | some c =>
                    if (s.drop (a + 1 + b + 1 + c)).head? ≠ some '.' then none
                    else
                      match ipSegment (s.drop (a + 1 + b + 1 + c + 1)) with
                      | none => none
                      | some d =>
                          if boundaryAfter (s.drop (a + 1 + b + 1 + c + 1 + d)) then
                            some (a + 1 + b + 1 + c + 1 + d)
                          else none

/-- The four passes of `colorize` on enabled highlighting: keywords, then
numbers with units (FgHiWhite+Bold), then URLs (FgCyan+Underline), then IPv4
addresses (FgYellow). -/
def colorizeData (s : List Char) : List Char :=
  let s1 := keywordPass s
  let s2 := scanReplace numericMatchAt (ansiWrap "97;1") none s1
  let s3 := scanReplace urlMatchAt (ansiWrap "36;4") none s2
  scanReplace ipMatchAt (ansiWrap "33") none s3

/-- `colorize(msg, enableHighlight)`. -/
def colorize (msg : String) (enableHighlight : Bool) : String :=
  if !enableHighlight then msg
  else ⟨colorizeData msg.data⟩

/-! ## ColorHandler (src, package handler) -/

/-- `ColorHandler`: the configuration fields of the Go struct (the writer,
mutex and `lastLogTime` rendering-cadence state are I/O concerns not
consulted by any verified property; the Go struct stores no bound attributes
or group — there is no field for them). -/
structure ColorHandler where
  minLevel : Int
  enableHighlight : Bool
  compactMode : Bool
deriving DecidableEq

/-- `ColorHandler.Enabled`: `level >= minLevel` (minLevel defaulting to info
when no options are given). -/
def colorEnabled (h : ColorHandler) (level : Int) : Bool :=
  decide (h.minLevel ≤ level)

/-- The `[%s]` level tag printed by `Handle` (slog's offset suffixes for
non-standard levels are elided). -/
def levelTag (level : Int) : String :=
  if level = -4 then "DEBUG"
  else if level = 0 then "INFO"
  else if level = 4 then "WARN"
  else if level = 8 then "ERROR"
  else "LEVEL"

/-- The record-dependent text `ColorHandler.Handle` produces: level tag, the
message after `colorize`, and one indented line per attribute (timestamps,
per-key color rules and group indentation are presentational details elided;
what matters to the verified property is that the output depends only on the
handler's own fields and the record). -/
def colorRender (h : ColorHandler) (r : Record) : List Char :=
  '[' :: (levelTag r.level).data ++ ']' :: ' ' :: (colorize r.message h.enableHighlight).data
    ++ r.attrs.flatMap (fun a =>
        '\n' :: ' ' :: ' ' :: ' ' :: ' ' :: (a.1.data ++ ':' :: ' ' :: a.2.data))

/-- `ColorHandler.WithAttrs`: `return h` — the attributes are dropped. -/
def colorWithAttrs (h : ColorHandler) (_attrs : List (String × String)) : ColorHandler := h

/-- `ColorHandler.WithGroup`: `return h` — the group name is dropped. -/
def colorWithGroup (h : ColorHandler) (_name : String) : ColorHandler := h

/-! ## Helper lemmas -/

/-- When a handle call reaches the duplicate-suppression check (level passes,
none of the pattern rules fires, and the message is noisy-transient), the
resulting tracker state is exactly the state produced by
`shouldFilterDuplicateError`, whatever the accept/reject outcome. -/
theorem smartHandle_state_dedup (h : SmartFilter) (st : FilterState) (now : Nat) (r : Record)
    (hl : ¬ r.level < h.minLevel)
    (hg : (h.ignoreGinDebug && ginDebugMatch r.message) = false)
    (hc : cookiePartitionMatch r.message = false)
    (hd : chromedpMatch r.message = false)
    (hh : (h.ignoreHealthCheck && healthCheckTrigger r) = false)
    (hn : isContextErrorMsg r.message = true) :
    (smartHandle h st now r).2
      = (shouldFilterDuplicateError r.message h.errorWindow now st).2 := by
  unfold smartHandle isDuplicateContextError
  simp only [hg, hc, hd, hh, hn, if_neg hl, Bool.false_eq_true, if_false, if_true]
  split <;> (try split) <;> rfl

/-- Same situation with a non-blank message: the full outcome of `Handle` is
the negated duplicate flag paired with the dedup state. -/
theorem smartHandle_result_dedup (h : SmartFilter) (st : FilterState) (now : Nat) (r : Record)
    (hl : ¬ r.level < h.minLevel)
    (hg : (h.ignoreGinDebug && ginDebugMatch r.message) = false)
    (hc : cookiePartitionMatch r.message = false)
    (hd : chromedpMatch r.message = false)
    (hh : (h.ignoreHealthCheck && healthCheckTrigger r) = false)
    (hn : isContextErrorMsg r.message = true)
    (he : trimSpace r.message.data ≠ []) :
    smartHandle h st now r
      = (!(shouldFilterDuplicateError r.message h.errorWindow now st).1,
         (shouldFilterDuplicateError r.message h.errorWindow now st).2) := by
  unfold smartHandle isDuplicateContextError
  simp only [hg, hc, hd, hh, hn, if_neg hl, Bool.false_eq_true, if_false, if_true]
  by_cases hdup : (shouldFilterDuplicateError r.message h.errorWindow now st).1 = true
  · simp [hdup]
  · simp only [Bool.not_eq_true] at hdup
    simp [hdup, he]

/-- Entries surviving the purge are at most `errorWindow` old. -/
theorem mem_purgeTracker {w now : Nat} {st : FilterState} {e : String × Nat}
    (he : e ∈ purgeTracker w now st) : now - e.2 ≤ w := by
  unfold purgeTracker at he
  have := (List.mem_filter.mp he).2
  simp only [Bool.not_eq_true', decide_eq_false_iff_not, not_lt] at this
  exact this

/-- Every entry of the state left by `shouldFilterDuplicateError` is at most
`errorWindow` old. -/
theorem sfd_fresh (msg : String) (w now : Nat) (st : FilterState) :
    ∀ e ∈ (shouldFilterDuplicateError msg w now st).2, now - e.2 ≤ w := by
  intro e he
  simp only [shouldFilterDuplicateError] at he
  split at he
  · exact mem_purgeTracker he
  · simp only [insertTracker] at he
    rcases List.mem_cons.mp he with h1 | h1
    · subst h1; simp
    · exact mem_purgeTracker (List.mem_of_mem_filter h1)

/-- An accepted noisy message heads the new tracker state with the current
timestamp. -/
theorem sfd_accept_head (msg : String) (w now : Nat) (st : FilterState)
    (h : (shouldFilterDuplicateError msg w now st).1 = false) :
    ∃ rest, (shouldFilterDuplicateError msg w now st).2 = (msg, now) :: rest := by
  simp only [shouldFilterDuplicateError] at h ⊢
  split at h
  · cases h
  · split
    · next hki =>
      next hko => exact absurd hki hko
    · exact ⟨_, rfl⟩

/-- A message whose tracker entry is within the window is reported as a
duplicate and the entry is not refreshed. -/
theorem sfd_dup_recent (msg : String) (w now T : Nat) (rest : FilterState)
    (hT : now - T < w) :
    shouldFilterDuplicateError msg w now ((msg, T) :: rest)
      = (true, purgeTracker w now ((msg, T) :: rest)) := by
  have hkeep : purgeTracker w now ((msg, T) :: rest) = (msg, T) :: purgeTracker w now rest := by
    unfold purgeTracker
    rw [List.filter_cons_of_pos]
    simp only [Bool.not_eq_true', decide_eq_false_iff_not, not_lt]
    omega
  simp only [shouldFilterDuplicateError, hkeep, lookupTracker, if_pos rfl]
  simp [hT, ← hkeep]

/-- A replace-all pass whose scan finds no match returns the text unchanged. -/
theorem scanReplace_id (mAt : Option Char → List Char → Option Nat)
    (wrap : List Char → List Char) :
    ∀ (s : List Char) (prev : Option Char),
      hasMatchScan mAt prev s = false → scanReplace mAt wrap prev s = s := by
  intro s
  induction s with
  | nil => intro prev _; rw [scanReplace]
  | cons c rest ih =>
      intro prev hm
      rw [hasMatchScan] at hm
      rw [scanReplace]
      rcases hmt : mAt prev (c :: rest) with _ | n
      · rw [hmt] at hm
        simp only [hmt]
        rw [ih (some c) hm]
      · cases n with
        | zero =>
            rw [hmt] at hm
            simp only [hmt]
            rw [ih (some c) hm]
        | succ k =>
            rw [hmt] at hm
            cases hm

/-- The keyword pass is the identity when no dictionary keyword matches. -/
theorem foldKeywords_id (table : List (String × String)) (s : List Char)
    (h : ∀ kw ∈ table, hasMatchScan (kwMatchAt kw.1.data) none s = false) :
    table.foldl (fun acc kw => scanReplace (kwMatchAt kw.1.data) (ansiWrap kw.2) none acc) s
      = s := by
  induction table with
  | nil => rfl
  | cons kw rest ih =>
      rw [List.foldl_cons, scanReplace_id _ _ s none (h kw (List.mem_cons_self _ _))]
      exact ih (fun k hk => h k (List.mem_cons_of_mem _ hk))

/-- `MultiHandler.Handle` returns `nil` and delivers a clone to exactly the
members whose own `Enabled` holds. -/
theorem multiHandle_spec (members : List Member) (r : Record) :
    (multiHandle members r).2 = none ∧
    ∀ i m, members.get? i = some m →
      (multiHandle members r).1.get? i
        = some (if m.enabledFn r.level then some (cloneRecord r, m.handleFn (cloneRecord r))
                else none) := by
  induction members with
  | nil =>
      refine ⟨rfl, ?_⟩
      intro i m hm
      cases i <;> cases hm
  | cons m0 rest ih =>
      constructor
      · rw [multiHandle]
        split <;> exact ih.1
      · intro i m hm
        cases i with
        | zero =>
            rw [List.get?_cons_zero] at hm
            injection hm with hm
            subst hm
            rw [multiHandle]
            split
            · next hen => simp [hen]
            · next hen => simp only [Bool.not_eq_true] at hen; simp [hen]
        | succ j =>
            rw [List.get?_cons_succ] at hm
            have := ih.2 j m hm
            rw [multiHandle]
            split <;> simpa using this

/-! ## Claims -/

/-- C1 counterexample: "context deadline exceeded chromedp" is classified
noisy-transient (its lowercased text contains "context deadline exceeded"),
yet its very first handle call is rejected — the chromedp pattern rule fires
before the dedup policy — refuting "for every noisy-transient message a first
handle call at time T is accepted". -/
theorem c1_counterexample :
    isContextErrorMsg "context deadline exceeded chromedp" = true
    ∧ smartHandle defaultFilter [] 100 ⟨8, "context deadline exceeded chromedp", []⟩
        = (false, [])
    ∧ chromedpMatch "context deadline exceeded chromedp" = true := by
  refine ⟨by decide, by decide, by decide⟩

/-- C1 (amended): for every noisy-transient message that also survives the
earlier rejection rules (level at or above the minimum, no gin-debug /
cookie-partition / chromedp / health-check match, message not blank), with
the dedup window configured to 5 minutes: a first handle call at time T is
accepted and records the message at T; an identical call at T+1 is rejected
as a duplicate without refreshing the stored timestamp; an identical call at
T+6 is accepted again and overwrites the entry with the current time. -/
theorem c1_noisy_dedup_window (h : SmartFilter) (T : Nat) (r : Record)
    (hw : h.errorWindow = 5)
    (hl : ¬ r.level < h.minLevel)
    (hg : (h.ignoreGinDebug && ginDebugMatch r.message) = false)
    (hc : cookiePartitionMatch r.message = false)
    (hd : chromedpMatch r.message = false)
    (hh : (h.ignoreHealthCheck && healthCheckTrigger r) = false)
    (hn : isContextErrorMsg r.message = true)
    (he : trimSpace r.message.data ≠ []) :
    smartHandle h [] T r = (true, [(r.message, T)])
    ∧ smartHandle h [(r.message, T)] (T + 1) r = (false, [(r.message, T)])
    ∧ smartHandle h [(r.message, T)] (T + 6) r = (true, [(r.message, T + 6)]) := by
  refine ⟨?_, ?_, ?_⟩
  · rw [smartHandle_result_dedup h [] T r hl hg hc hd hh hn he]
    rfl
  · have hkeep : purgeTracker h.errorWindow (T + 1) [(r.message, T)] = [(r.message, T)] := by
      unfold purgeTracker
      rw [List.filter_cons_of_pos]
      · rfl
      · simp only [Bool.not_eq_true', decide_eq_false_iff_not]
        omega
    rw [smartHandle_result_dedup h [(r.message, T)] (T + 1) r hl hg hc hd hh hn he,
        sfd_dup_recent r.message h.errorWindow (T + 1) T [] (by omega), hkeep]
    rfl
  · have hdrop : purgeTracker h.errorWindow (T + 6) [(r.message, T)] = [] := by
      unfold purgeTracker
      rw [List.filter_cons_of_neg]
      · rfl
      · simp only [Bool.not_eq_true', decide_eq_false_iff_not, not_not]
        omega
    have hsfd : shouldFilterDuplicateError r.message h.errorWindow (T + 6) [(r.message, T)]
        = (false, [(r.message, T + 6)]) := by
      simp only [shouldFilterDuplicateError, hdrop, lookupTracker, insertTracker,
        List.filter_nil]
      rfl
    rw [smartHandle_result_dedup h [(r.message, T)] (T + 6) r hl hg hc hd hh hn he, hsfd]
    rfl

/-- Witness for C1 (amended): the scenario realized by
`error "connection reset by peer"` under the default filter at T = 100. -/
theorem c1_noisy_dedup_window_witness :
    smartHandle defaultFilter [] 100 ⟨8, "connection reset by peer", []⟩
      = (true, [("connection reset by peer", 100)])
    ∧ smartHandle defaultFilter [("connection reset by peer", 100)] 101
        ⟨8, "connection reset by peer", []⟩
      = (false, [("connection reset by peer", 100)])
    ∧ smartHandle defaultFilter [("connection reset by peer", 100)] 106
        ⟨8, "connection reset by peer", []⟩
      = (true, [("connection reset by peer", 106)]) :=
  c1_noisy_dedup_window defaultFilter 100 ⟨8, "connection reset by peer", []⟩
    rfl (by decide) (by decide) (by decide) (by decide) (by decide) (by decide) (by decide)

/-- C2 counterexample: the record `error "hello"` passes all rejection rules
and `Handle` forwards it (result `true`) although the wrapped handler's
`Enabled` is constantly false — so "forwarded only if the wrapped handler's
enabled(level) returns true" fails as a property of the handle call. -/
theorem c2_counterexample :
    (smartHandle { defaultFilter with handler := ⟨fun _ => false⟩ } [] 0
        ⟨8, "hello", []⟩).1 = true
    ∧ (⟨fun _ => false⟩ : WrappedH).enabledFn 8 = false
    ∧ smartEnabled { defaultFilter with handler := ⟨fun _ => false⟩ } 8 = false := by
  refine ⟨by decide, rfl, rfl⟩

/-- C2 (amended): a record that passes all rejection rules is forwarded to
the wrapped handler unconditionally — `Handle` itself never consults the
wrapped handler's `enabled`; that gate lives in the Filtering Handler's own
`Enabled` method, which holds iff the level passes the minimum and the
wrapped handler is enabled. -/
theorem c2_forward_unconditional_gate_in_enabled (h : SmartFilter) (st : FilterState)
    (now : Nat) (r : Record)
    (hl : ¬ r.level < h.minLevel)
    (hg : (h.ignoreGinDebug && ginDebugMatch r.message) = false)
    (hc : cookiePartitionMatch r.message = false)
    (hd : chromedpMatch r.message = false)
    (hh : (h.ignoreHealthCheck && healthCheckTrigger r) = false)
    (hdup : (isDuplicateContextError r.message h.errorWindow now st).1 = false)
    (he : trimSpace r.message.data ≠ []) :
    (smartHandle h st now r).1 = true
    ∧ (smartEnabled h r.level = true
        ↔ (h.minLevel ≤ r.level ∧ h.handler.enabledFn r.level = true)) := by
  constructor
  · unfold smartHandle
    simp only [hg, hc, hd, hh, if_neg hl, Bool.false_eq_true, if_false]
    simp [hdup, he]
  · simp [smartEnabled]

/-- Witness for C2 (amended) at `error "hello"` under the default filter. -/
theorem c2_forward_unconditional_gate_in_enabled_witness :
    (smartHandle defaultFilter [] 0 ⟨8, "hello", []⟩).1 = true
    ∧ (smartEnabled defaultFilter (8 : Int) = true
        ↔ ((0 : Int) ≤ 8 ∧ defaultFilter.handler.enabledFn 8 = true)) :=
  c2_forward_unconditional_gate_in_enabled defaultFilter [] 0 ⟨8, "hello", []⟩
    (by decide) (by decide) (by decide) (by decide) (by decide) (by decide) (by decide)

/-- C3 counterexample: handling the non-noisy record `info "hello"` at time
1000 leaves the stale entry `("context canceled", 0)` — aged far beyond the
window — untouched in the dedup map, refuting "after every handle call the
map contains no entry older than the window". -/
theorem c3_counterexample :
    smartHandle defaultFilter [("context canceled", 0)] 1000 ⟨0, "hello", []⟩
      = (true, [("context canceled", 0)])
    ∧ 1000 - 0 > defaultFilter.errorWindow := by
  refine ⟨by decide, by decide⟩

/-- C3 (amended): the lazy purge runs only on handle calls that reach the
duplicate-suppression check (the message is noisy-transient and no earlier
rule fires); after such a call every entry of the dedup map is at most the
configured window old. -/
theorem c3_purge_at_dedup_check (h : SmartFilter) (st : FilterState) (now : Nat) (r : Record)
    (hl : ¬ r.level < h.minLevel)
    (hg : (h.ignoreGinDebug && ginDebugMatch r.message) = false)
    (hc : cookiePartitionMatch r.message = false)
    (hd : chromedpMatch r.message = false)
    (hh : (h.ignoreHealthCheck && healthCheckTrigger r) = false)
    (hn : isContextErrorMsg r.message = true) :
    ∀ e ∈ (smartHandle h st now r).2, now - e.2 ≤ h.errorWindow := by
  rw [smartHandle_state_dedup h st now r hl hg hc hd hh hn]
  exact sfd_fresh r.message h.errorWindow now st

/-- Witness for C3 (amended): a noisy record handled at time 1000 purges the
stale entry, leaving exactly the fresh entry the theorem bounds. -/
theorem c3_purge_at_dedup_check_witness :
    (smartHandle defaultFilter [("context canceled", 0)] 1000
        ⟨8, "connection reset by peer", []⟩).2
      = [("connection reset by peer", 1000)]
    ∧ 1000 - (("connection reset by peer", 1000) : String × Nat).2
        ≤ defaultFilter.errorWindow :=
  ⟨by decide,
   c3_purge_at_dedup_check defaultFilter [("context canceled", 0)] 1000
     ⟨8, "connection reset by peer", []⟩
     (by decide) (by decide) (by decide) (by decide) (by decide) (by decide)
     ("connection reset by peer", 1000) (by decide)⟩

/-- C4: handlers derived by `WithAttrs`/`WithGroup` share the dedup state: a
noisy-transient record accepted through `h` at time T is rejected as a
duplicate when handled through a derived handler (on the shared state) within
the window, and the derived handlers behave identically to `h` on any state —
so duplicate detection stays global across all derived scoped loggers, and
binding attributes never resets dedup state. -/
theorem c4_dedup_shared_across_derived (h : SmartFilter) (wa wg : WrappedH → WrappedH)
    (st : FilterState) (T now : Nat) (r : Record)
    (hl : ¬ r.level < h.minLevel)
    (hg : (h.ignoreGinDebug && ginDebugMatch r.message) = false)
    (hc : cookiePartitionMatch r.message = false)
    (hd : chromedpMatch r.message = false)
    (hh : (h.ignoreHealthCheck && healthCheckTrigger r) = false)
    (hn : isContextErrorMsg r.message = true)
    (he : trimSpace r.message.data ≠ [])
    (hacc : (smartHandle h st T r).1 = true)
    (hwin : now - T < h.errorWindow) :
    (smartHandle (smartWithAttrs h wa) (smartHandle h st T r).2 now r).1 = false
    ∧ (smartHandle (smartWithGroup h wg) (smartHandle h st T r).2 now r).1 = false
    ∧ smartHandle (smartWithAttrs h wa) st T r = smartHandle h st T r
    ∧ smartHandle (smartWithGroup h wg) st T r = smartHandle h st T r := by
  have hia : ∀ (st' : FilterState) (n' : Nat),
      smartHandle (smartWithAttrs h wa) st' n' r = smartHandle h st' n' r :=
    fun _ _ => rfl
  have hig : ∀ (st' : FilterState) (n' : Nat),
      smartHandle (smartWithGroup h wg) st' n' r = smartHandle h st' n' r :=
    fun _ _ => rfl
  have hres := smartHandle_result_dedup h st T r hl hg hc hd hh hn he
  have hsfd : (shouldFilterDuplicateError r.message h.errorWindow T st).1 = false := by
    rw [hres] at hacc
    simpa using hacc
  obtain ⟨rest, hrest⟩ := sfd_accept_head r.message h.errorWindow T st hsfd
  have hst1 : (smartHandle h st T r).2 = (r.message, T) :: rest := by
    rw [hres]; exact hrest
  have hsecond : (smartHandle h ((r.message, T) :: rest) now r).1 = false := by
    rw [smartHandle_result_dedup h ((r.message, T) :: rest) now r hl hg hc hd hh hn he,
        sfd_dup_recent r.message h.errorWindow now T rest hwin]
    rfl
  refine ⟨?_, ?_, hia st T, hig st T⟩
  · rw [hia, hst1]; exact hsecond
  · rw [hig, hst1]; exact hsecond

/-- Witness for C4: a concrete accept-then-reject across derived handlers. -/
theorem c4_dedup_shared_across_derived_witness :
    (smartHandle (smartWithAttrs defaultFilter id)
        (smartHandle defaultFilter [] 100 ⟨8, "connection reset by peer", []⟩).2 101
        ⟨8, "connection reset by peer", []⟩).1 = false
    ∧ (smartHandle (smartWithGroup defaultFilter id)
        (smartHandle defaultFilter [] 100 ⟨8, "connection reset by peer", []⟩).2 101
        ⟨8, "connection reset by peer", []⟩).1 = false
    ∧ smartHandle (smartWithAttrs defaultFilter id) [] 100
        ⟨8, "connection reset by peer", []⟩
      = smartHandle defaultFilter [] 100 ⟨8, "connection reset by peer", []⟩
    ∧ smartHandle (smartWithGroup defaultFilter id) [] 100
        ⟨8, "connection reset by peer", []⟩
      = smartHandle defaultFilter [] 100 ⟨8, "connection reset by peer", []⟩ :=
  c4_dedup_shared_across_derived defaultFilter id id [] 100 101
    ⟨8, "connection reset by peer", []⟩
    (by decide) (by decide) (by decide) (by decide) (by decide) (by decide) (by decide)
    (by decide) (by decide)

/-- C5: the fan-out dispatcher's handle returns `nil` to the caller for every
member set and record, and every member whose `enabled(level)` holds receives
its own clone of the record — its delivery is independent of the errors any
other member returns. -/
theorem c5_fanout_independence (members : List Member) (r : Record) (i : Nat) (m : Member)
    (hm : members.get? i = some m) (hen : m.enabledFn r.level = true) :
    (multiHandle members r).2 = none
    ∧ (multiHandle members r).1.get? i
        = some (some (cloneRecord r, m.handleFn (cloneRecord r))) := by
  refine ⟨(multiHandle_spec members r).1, ?_⟩
  have hdeliver := (multiHandle_spec members r).2 i m hm
  rw [hdeliver, hen]
  simp

/-- Witness for C5 with two members {A (fails with "disk full"), B
(succeeds)}: B still receives the record and no error surfaces. -/
theorem c5_fanout_independence_witness :
    (multiHandle
        [⟨fun _ => true, fun _ => some "disk full"⟩, ⟨fun _ => true, fun _ => none⟩]
        ⟨0, "fanout", []⟩).2 = none
    ∧ (multiHandle
        [⟨fun _ => true, fun _ => some "disk full"⟩, ⟨fun _ => true, fun _ => none⟩]
        ⟨0, "fanout", []⟩).1.get? 1
      = some (some (cloneRecord ⟨0, "fanout", []⟩,
          (⟨fun _ => true, fun _ => none⟩ : Member).handleFn
            (cloneRecord ⟨0, "fanout", []⟩))) :=
  c5_fanout_independence
    [⟨fun _ => true, fun _ => some "disk full"⟩, ⟨fun _ => true, fun _ => none⟩]
    ⟨0, "fanout", []⟩ 1 ⟨fun _ => true, fun _ => none⟩ rfl rfl

/-- C6: a request whose path has no configured skip path as prefix emits
exactly one structured record, whose severity is error for status ≥ 500, warn
for 400–499, and info otherwise. -/
theorem c6_middleware_single_record_severity (skipPaths : List String) (path : String)
    (status : Int)
    (hskip : (skipPaths.any fun sp => sp.data.isPrefixOf path.data) = false) :
    ginMiddlewareLog skipPaths path status
      = [(getLogLevelForStatus status, "HTTP Request")]
    ∧ (500 ≤ status → getLogLevelForStatus status = 8)
    ∧ (400 ≤ status → status < 500 → getLogLevelForStatus status = 4)
    ∧ (status < 400 → getLogLevelForStatus status = 0) := by
  refine ⟨?_, ?_, ?_, ?_⟩
  · rw [ginMiddlewareLog, if_neg (by simp [hskip])]
  · intro h5
    rw [getLogLevelForStatus, if_pos (by omega)]
  · intro h4 h5
    rw [getLogLevelForStatus, if_neg (by omega), if_pos (by omega)]
  · intro h4
    rw [getLogLevelForStatus, if_neg (by omega), if_neg (by omega)]
    split <;> rfl

/-- Witness for C6 at a 404 under the default skip paths, together with the
concrete severities for 201, 404 and 503. -/
theorem c6_middleware_single_record_severity_witness :
    (ginMiddlewareLog defaultSkipPaths "/api/v1/users" 404
        = [(getLogLevelForStatus 404, "HTTP Request")]
      ∧ ((500 : Int) ≤ 404 → getLogLevelForStatus 404 = 8)
      ∧ ((400 : Int) ≤ 404 → (404 : Int) < 500 → getLogLevelForStatus 404 = 4)
      ∧ ((404 : Int) < 400 → getLogLevelForStatus 404 = 0))
    ∧ getLogLevelForStatus 201 = 0
    ∧ getLogLevelForStatus 404 = 4
    ∧ getLogLevelForStatus 503 = 8 :=
  ⟨c6_middleware_single_record_severity defaultSkipPaths "/api/v1/users" 404 (by decide),
   by decide, by decide, by decide⟩

/-- C7: with email masking disabled in the loaded configuration (the
default), `MaskEmail` is the identity on every input; with it enabled,
`MaskEmail "test@example.com" = "te**@example.com"`. -/
theorem c7_mask_email_toggle (c c' : PrivacyCfg) (email : String)
    (hoff : c.enableEmailMask = false) (hon : c'.enableEmailMask = true) :
    MaskEmail (some c) email = email
    ∧ MaskEmail (some c') "test@example.com" = "te**@example.com" := by
  constructor
  · by_cases hemp : email = ""
    · rw [MaskEmail, if_pos hemp, hemp]
    · rw [MaskEmail, if_neg hemp]
      have hguard : cfgEmailMaskOff (some c) = true := by
        simp [cfgEmailMaskOff, hoff]
      rw [if_pos hguard]
  · rw [MaskEmail, if_neg (by decide : ¬("test@example.com" = ""))]
    have hguard : cfgEmailMaskOff (some c') = false := by
      simp [cfgEmailMaskOff, hon]
    rw [if_neg (by simp [hguard])]
    decide

/-- Witness for C7 with concrete disabled and enabled configurations. -/
theorem c7_mask_email_toggle_witness :
    MaskEmail (some ⟨false, false, false⟩) "a@b.com" = "a@b.com"
    ∧ MaskEmail (some ⟨true, false, false⟩) "test@example.com" = "te**@example.com" :=
  c7_mask_email_toggle ⟨false, false, false⟩ ⟨true, false, false⟩ "a@b.com" rfl rfl

/-- C8: the colorized console handler's `WithAttrs` and `WithGroup` return
the handler itself unchanged for every attribute list and group name, so
bound attributes and groups are dropped and never affect any subsequently
handled record's output or the handler's enablement. -/
theorem c8_color_binding_noop (h : ColorHandler) (attrs : List (String × String))
    (name : String) (r : Record) (level : Int) :
    colorWithAttrs h attrs = h
    ∧ colorWithGroup h name = h
    ∧ colorRender (colorWithAttrs h attrs) r = colorRender h r
    ∧ colorRender (colorWithGroup h name) r = colorRender h r
    ∧ colorEnabled (colorWithAttrs h attrs) level = colorEnabled h level :=
  ⟨rfl, rfl, rfl, rfl, rfl⟩

/-- C9: a message in which none of the four highlighting passes (dictionary
keyword, numeric token with optional unit, URL, IPv4) finds a match is
returned byte-identical by `colorize` with highlighting enabled; with
highlighting disabled, every message is returned unchanged. -/
theorem c9_highlight_roundtrip (msg : String)
    (hk : ∀ kw ∈ keywordTable, hasMatchScan (kwMatchAt kw.1.data) none msg.data = false)
    (hn : hasMatchScan numericMatchAt none msg.data = false)
    (hu : hasMatchScan urlMatchAt none msg.data = false)
    (hi : hasMatchScan ipMatchAt none msg.data = false) :
    colorize msg true = msg ∧ ∀ m : String, colorize m false = m := by
  constructor
  · show (⟨colorizeData msg.data⟩ : String) = msg
    have h1 : keywordPass msg.data = msg.data := by
      unfold keywordPass
      exact foldKeywords_id keywordTable msg.data hk
    simp only [colorizeData]
    rw [h1, scanReplace_id numericMatchAt _ msg.data none hn,
        scanReplace_id urlMatchAt _ msg.data none hu,
        scanReplace_id ipMatchAt _ msg.data none hi]
  · intro m
    rfl

/-- Witness for C9 on the matchless message "hello, friend.". -/
theorem c9_highlight_roundtrip_witness :
    colorize "hello, friend." true = "hello, friend."
    ∧ ∀ m : String, colorize m false = m :=
  c9_highlight_roundtrip "hello, friend." (by decide) (by decide) (by decide) (by decide)

/-- C10 counterexample: with a nil global configuration, the non-empty input
"a@b.com" is returned unchanged by `MaskEmail` (the masking logic leaves a
two-character-or-shorter username as is), refuting "every non-empty input is
transformed rather than returned unchanged". -/
theorem c10_counterexample :
    MaskEmail none "a@b.com" = "a@b.com" ∧ "a@b.com" ≠ "" := by
  refine ⟨by decide, by decide⟩

/-- C10 (amended): with a nil global configuration (library used before
initialization) each of the three privacy transforms takes its
masking/sanitizing branch, behaving exactly as with all privacy toggles
enabled — though that logic may still return some non-empty inputs unchanged
(e.g. too-short usernames); on `"test@example.com"` the nil-configuration
`MaskEmail` really masks. -/
theorem c10_nil_config_behaves_enabled (input : String) :
    MaskEmail none input = MaskEmail (some ⟨true, true, true⟩) input
    ∧ MaskPhone none input = MaskPhone (some ⟨true, true, true⟩) input
    ∧ SanitizeUserInput none input = SanitizeUserInput (some ⟨true, true, true⟩) input
    ∧ MaskEmail none "test@example.com" = "te**@example.com" := by
  refine ⟨rfl, rfl, rfl, by decide⟩

end Logmiao
